import Mathlib

/-!
Verification of the PyMVPA core against its specification.

This file gives a shallow embedding, in Lean 4, of the parts of the
repository that the checked claims are about:

* mvpa/datasets/dataset.py : the Dataset container (constructor,
  selectFeatures, selectSamples, concatenation, permutedRegressors,
  getRandomSamples);
* mvpa/clfs/classifier.py : MaximalVote.__call__, BinaryClassifier.__init__,
  MulticlassClassifier.train, ProxyClassifier.train and predict;
* mvpa/measures/anova.py : OneWayAnova._call.

Numpy arrays are modelled as Lean lists (a 2-d array as a list of rows
together with its stored column count), Python exceptions as the error
case of Except String, and the numpy random permutation and the
random.sample draws as explicit oracle function parameters.  Fallible
Python code is translated to Except-valued Lean functions whose error
strings name the Python exception that the source raises.
-/

/-- Input accepted by the samples argument of Dataset.__init__
(dataset.py lines 48-62): a plain 1-d sequence, a 2-d matrix, or a 3-d
array (which the constructor rejects). -/
inductive SamplesInput
  | d1 (row : List Int)
  | d2 (rows : List (List Int))
  | d3 (cube : List (List (List Int)))
deriving Repr

/-- Input accepted by the labels and chunks arguments of
Dataset.__init__: either a scalar (broadcast) or a sequence. -/
inductive ValOrSeq
  | scalar (v : Int)
  | seq (l : List Int)
deriving Repr

/-- The Dataset container of dataset.py.  The nfeat field records the
second component of the numpy shape of the samples array (so that it is
kept even by selections that leave no rows); origlabels is the backup
that permutedRegressors keeps while a permutation is active. -/
structure Dataset where
  samples : List (List Int)
  nfeat : Nat
  labels : List Int
  chunks : List Int
  origlabels : Option (List Int)
deriving Repr, DecidableEq

/-- N.array(samples, ndmin=2) followed by the 2-d check of
Dataset.__init__ (dataset.py lines 48-62).  A 1-d input becomes a single
row; an empty 2-d input has numpy shape (1, 0); a 3-d input raises
ValueError. -/
def ndmin2 : SamplesInput → Except String (List (List Int) × Nat)
  | .d1 row => .ok ([row], row.length)
  | .d2 rows =>
    match rows with
    | [] => .ok ([[]], 0)
    | r :: _ => .ok (rows, r.length)
  | .d3 _ => .error "ValueError: Only (samples x features) -> 2d sample are supported."

/-- Label handling of Dataset.__init__ (dataset.py lines 67-81): a
sequence must match the number of samples, a scalar is repeated. -/
def mkLabels (nsamples : Nat) : ValOrSeq → Except String (List Int)
  | .seq l =>
    if l.length ≠ nsamples then
      .error "ValueError: Length of labels has to match the number of patterns."
    else .ok l
  | .scalar v => .ok (List.replicate nsamples v)

/-- Chunk handling of Dataset.__init__ (dataset.py lines 83-101): None
becomes arange(nsamples), a sequence must match the number of samples, a
scalar is repeated. -/
def mkChunks (nsamples : Nat) : Option ValOrSeq → Except String (List Int)
  | none => .ok ((List.range nsamples).map Int.ofNat)
  | some (.seq c) =>
    if c.length ≠ nsamples then
      .error "ValueError: Length of chunks has to match the number of samples."
    else .ok c
  | some (.scalar v) => .ok (List.replicate nsamples v)

/-- Dataset.__init__ (dataset.py lines 35-101). -/
def mkDataset (samples : SamplesInput) (labels : ValOrSeq) (chunks : Option ValOrSeq) :
    Except String Dataset :=
  match ndmin2 samples with
  | .error e => .error e
  | .ok (smp, nf) =>
    match mkLabels smp.length labels with
    | .error e => .error e
    | .ok lab =>
      match mkChunks smp.length chunks with
      | .error e => .error e
      | .ok chk => .ok ⟨smp, nf, lab, chk, none⟩

/-- Dataset.__init__ applied to arrays that are already 2-d (the way the
other Dataset methods call the constructor): the samples array is stored
as given, and labels and chunks only undergo the length checks. -/
def mkDatasetArr (smp : List (List Int)) (nfeat : Nat) (lab chk : List Int) :
    Except String Dataset :=
  if lab.length ≠ smp.length then
    .error "ValueError: Length of labels has to match the number of patterns."
  else if chk.length ≠ smp.length then
    .error "ValueError: Length of chunks has to match the number of samples."
  else .ok ⟨smp, nfeat, lab, chk, none⟩

/-- The structural Dataset invariant of the specification:
len(labels) == len(chunks) == samples.shape[0]. -/
def dsInv (d : Dataset) : Prop :=
  d.labels.length = d.samples.length ∧ d.chunks.length = d.samples.length

/-- Dataset.selectFeatures (dataset.py lines 152-162): column selection;
a column id beyond the feature axis raises IndexError in numpy. -/
def selectFeatures (d : Dataset) (ids : List Nat) : Except String Dataset :=
  if ids.all (fun i => i < d.nfeat) then
    mkDatasetArr (d.samples.map (fun r => ids.map (fun i => r.getD i 0)))
      ids.length d.labels d.chunks
  else .error "IndexError: index out of bounds"

/-- Dataset.selectSamples on a sequence mask (dataset.py lines 165-178):
row selection; an out of range row index raises IndexError in numpy. -/
def selectSamplesList (d : Dataset) (mask : List Nat) : Except String Dataset :=
  if mask.all (fun i => i < d.samples.length) then
    mkDatasetArr (mask.map (fun i => d.samples.getD i []))
      d.nfeat
      (mask.map (fun i => d.labels.getD i 0))
      (mask.map (fun i => d.chunks.getD i 0))
  else .error "IndexError: index out of bounds"

/-- Dataset.selectSamples on a single non-sequence index: the source
normalizes it to a length one sequence (dataset.py lines 171-174). -/
def selectSamplesSingle (d : Dataset) (i : Nat) : Except String Dataset :=
  selectSamplesList d [i]

/-- Dataset.__iadd__ (dataset.py lines 113-131): in-place concatenation;
raises ValueError when the feature counts differ, otherwise samples,
labels and chunks are simply concatenated. -/
def iaddDS (a b : Dataset) : Except String Dataset :=
  if a.nfeat ≠ b.nfeat then
    .error "ValueError: Cannot add Dataset, because the number of feature do not match."
  else
    .ok ⟨a.samples ++ b.samples, a.nfeat, a.labels ++ b.labels,
         a.chunks ++ b.chunks, a.origlabels⟩

/-- Dataset.__add__ (dataset.py lines 134-149): builds a fresh Dataset
from the fields of the left operand and then merges the right operand
in place. -/
def addDS (a b : Dataset) : Except String Dataset :=
  match mkDatasetArr a.samples a.nfeat a.labels a.chunks with
  | .error e => .error e
  | .ok out => iaddDS out b

/-- Sorted insertion without duplicates, the building block of the
N.unique model. -/
def insertUniqueSorted (x : Int) : List Int → List Int
  | [] => [x]
  | y :: ys =>
    if x < y then x :: y :: ys
    else if x = y then y :: ys
    else y :: insertUniqueSorted x ys

/-- N.unique: the sorted list of distinct values of a vector (used by
the uniquelabels and uniquechunks properties, dataset.py lines 293-312). -/
def uniqueInts (l : List Int) : List Int :=
  l.foldr insertUniqueSorted []

/-- (labels == r).nonzero()[0]: the ascending list of positions holding
the value r (dataset.py line 241). -/
def npos (labels : List Int) (r : Int) : List Nat :=
  (List.range labels.length).filter (fun i => labels.getD i 0 = r)

/-- random.sample(population, k) with the draw supplied by an oracle:
the standard library raises ValueError when k exceeds the population
size, otherwise it returns k distinct members of the population. -/
def randomSample (sampler : List Nat → Nat → List Nat) (pop : List Nat) (k : Nat) :
    Except String (List Nat) :=
  if k ≤ pop.length then .ok (sampler pop k)
  else .error "ValueError: sample larger than population"

/-- The sample accumulation loop of Dataset.getRandomSamples
(dataset.py lines 237-242): for the i-th unique label r it draws
nperlabel[i] ids from the positions holding r; indexing nperlabel past
its end raises IndexError. -/
def chosenGo (sampler : List Nat → Nat → List Nat) (labels : List Int) (nper : List Nat) :
    List Int → Nat → Except String (List Nat)
  | [], _ => .ok []
  | r :: rest, i =>
    match nper.get? i with
    | none => .error "IndexError: list index out of range"
    | some k =>
      match randomSample sampler (npos labels r) k with
      | .error e => .error e
      | .ok s =>
        match chosenGo sampler labels nper rest (i + 1) with
        | .error e => .error e
        | .ok restIds => .ok (s ++ restIds)

/-- The isinstance normalization of nperlabel (dataset.py lines
233-235): an integer is broadcast into one entry per unique label, a
sequence is used as given. -/
def nperLOf (ul : List Int) : Sum Nat (List Nat) → List Nat
  | .inl k => ul.map (fun _ => k)
  | .inr l => l

/-- Dataset.getRandomSamples (dataset.py lines 218-244): the per-label
draws are accumulated and handed to selectSamples. -/
def getRandomSamples (sampler : List Nat → Nat → List Nat) (d : Dataset)
    (nper : Sum Nat (List Nat)) : Except String Dataset :=
  match chosenGo sampler d.labels (nperLOf (uniqueInts d.labels) nper)
      (uniqueInts d.labels) 0 with
  | .error e => .error e
  | .ok ids => selectSamplesList d ids

/-- The values of labels at the positions where chunks equals o, in
order: the numpy gather self.labels[self.chunks == o]. -/
def gatherWhere (chunks labels : List Int) (o : Int) : List Int :=
  ((chunks.zip labels).filter (fun p => p.1 = o)).map (fun p => p.2)

/-- The numpy scatter self.labels[self.chunks == o] = news: replaces the
values of labels at the positions where chunks equals o by the
successive elements of news. -/
def scatterWhere (o : Int) : List Int → List Int → List Int → List Int
  | news, c :: cs, l :: ls =>
    if c = o then news.headD l :: scatterWhere o (news.drop 1) cs ls
    else l :: scatterWhere o news cs ls
  | _, _, ls => ls

/-- The per-chunk branch of Dataset.permutedRegressors (dataset.py lines
209-213): for every unique chunk value the labels inside that chunk are
replaced by a permutation of themselves, on the evolving label vector. -/
def perChunkPermute (perm : List Int → List Int) (chunks labels : List Int) : List Int :=
  (uniqueInts chunks).foldl
    (fun lab o => scatterWhere o (perm (gatherWhere chunks lab o)) chunks lab) labels

/-- Dataset.permutedRegressors (dataset.py lines 181-215), with the
numpy random permutation supplied as an oracle.  Enabling stores a copy
of the current labels in origlabels and installs permuted labels;
disabling restores the backup, or raises RuntimeError when no
permutation is active. -/
def permutedRegressors (perm : List Int → List Int) (d : Dataset)
    (status : Bool) (perchunk : Bool) : Except String Dataset :=
  if !status then
    match d.origlabels with
    | none =>
      .error "RuntimeError: Cannot restore labels. randomizedRegressors has never been called with status == True."
    | some ol => .ok { d with labels := ol, origlabels := none }
  else
    let newlabels :=
      if perchunk then perChunkPermute perm d.chunks d.labels
      else perm d.labels
    .ok { d with origlabels := some d.labels, labels := newlabels }

/-- A single prediction as handled by MaximalVote.__call__ and produced
by BinaryClassifier.predict: either one label, or a sequence of possible
labels (classifier.py lines 282-283 and 408-423). -/
inductive PredOut
  | one (l : Int)
  | seq (ls : List Int)
deriving Repr, DecidableEq

/-- What MaximalVote.__call__ reads from each input classifier: whether
its predictions state is enabled, and the per-sample predictions held in
that state. -/
structure ClfView where
  predEnabled : Bool
  predictions : List PredOut
deriving Repr

/-- The two state slots registered by MaximalVote.__init__
(classifier.py lines 254-257): predictions is enabled by default,
all_label_counts is disabled by default. -/
structure MVStates where
  predictions_enabled : Bool := true
  predictions : Option (List Int) := none
  all_label_counts_enabled : Bool := false
  all_label_counts : Option (List (List (Int × Nat))) := none
deriving Repr, DecidableEq

/-- Modelled from the spec: the State registry of mvpa.misc.state (not
under src) silently ignores a write to a disabled state slot; writing an
enabled slot stores the value.  Here for the predictions slot of
MaximalVote. -/
def mvSetPredictions (st : MVStates) (v : List Int) : MVStates :=
  if st.predictions_enabled then { st with predictions := some v } else st

/-- Modelled from the spec: the same silent-drop write rule for the
all_label_counts slot of MaximalVote. -/
def mvSetALC (st : MVStates) (v : List (List (Int × Nat))) : MVStates :=
  if st.all_label_counts_enabled then { st with all_label_counts := some v } else st

/-- The labels contributed by one prediction: a non-sequence prediction
is wrapped into a one-element tuple (classifier.py lines 281-283). -/
def predLabels : PredOut → List Int
  | .one l => [l]
  | .seq ls => ls

/-- One dictionary update of the tally loop (classifier.py lines
284-289): a missing key is inserted with count 0 and then incremented.
The Python dict is modelled as an association list in insertion order. -/
def bumpLabel (counts : List (Int × Nat)) (label : Int) : List (Int × Nat) :=
  if counts.any (fun p => p.1 = label) then
    counts.map (fun p => if p.1 = label then (p.1, p.2 + 1) else p)
  else counts ++ [(label, 1)]

/-- The inner tally loop of MaximalVote.__call__ for one classifier
(classifier.py lines 280-289): sample i of this classifier updates
all_label_counts[i]; an index beyond the list raises IndexError. -/
def tallyClf : List (List (Int × Nat)) → List PredOut → Nat →
    Except String (List (List (Int × Nat)))
  | alc, [], _ => .ok alc
  | alc, p :: ps, i =>
    match alc.get? i with
    | none => .error "IndexError: list index out of range"
    | some counts =>
      tallyClf (alc.set i ((predLabels p).foldl bumpLabel counts)) ps (i + 1)

/-- The outer loop of MaximalVote.__call__ over the classifiers
(classifier.py lines 270-289): each classifier must have its
predictions state enabled, and the first classifier fixes the number of
per-sample tallies. -/
def tallyAll : Option (List (List (Int × Nat))) → List ClfView →
    Except String (Option (List (List (Int × Nat))))
  | alc, [] => .ok alc
  | alc, clf :: rest =>
    if !clf.predEnabled then
      .error "ValueError: MaximalVote needs classifiers with state predictions enabled"
    else
      let alc0 :=
        match alc with
        | none => List.replicate clf.predictions.length ([] : List (Int × Nat))
        | some a => a
      match tallyClf alc0 clf.predictions 0 with
      | .error e => .error e
      | .ok a => tallyAll (some a) rest

/-- The explicit maximum search of MaximalVote.__call__ for one sample
(classifier.py lines 297-304): collects every label attaining the
maximal count, in dictionary iteration order. -/
def maxVoteLabels (counts : List (Int × Nat)) : List Int × Int :=
  counts.foldl
    (fun acc p =>
      if (p.2 : Int) > acc.2 then ([p.1], (p.2 : Int))
      else if (p.2 : Int) = acc.2 then (acc.1 ++ [p.1], acc.2)
      else acc)
    ([], -1)

/-- The selection loop of MaximalVote.__call__ (classifier.py lines
291-312).  An empty tally fails the assert; a tie reaches the call of
the name warning, which classifier.py never imports or defines, so the
tie branch raises NameError instead of warning and picking maxk[0]. -/
def pickPredictions : List (List (Int × Nat)) → Except String (List Int)
  | [] => .ok []
  | counts :: rest =>
    match maxVoteLabels counts with
    | ([], _) =>
      .error "AssertionError: We should have obtained at least a single key of max label"
    | ([k], _) =>
      match pickPredictions rest with
      | .error e => .error e
      | .ok r => .ok (k :: r)
    | (_ :: _ :: _, _) => .error "NameError: global name warning is not defined"

/-- MaximalVote.__call__ (classifier.py lines 260-316): an empty
classifier list returns an empty prediction list at once; otherwise the
votes are tallied, the per-sample maxima picked, and the two state slots
written. -/
def maximalVoteCall (st : MVStates) (clfs : List ClfView) :
    Except String (List Int × MVStates) :=
  if clfs.length = 0 then .ok ([], st)
  else
    match tallyAll none clfs with
    | .error e => .error e
    | .ok alcOpt =>
      let alc := alcOpt.getD []
      match pickPredictions alc with
      | .error e => .error e
      | .ok preds =>
        let st1 := mvSetALC st alc
        let st2 := mvSetPredictions st1 preds
        .ok (preds, st2)

/-- The duplicate removal performed by the Python Set constructor in
BinaryClassifier.__init__ (classifier.py lines 395-396), modelled as
first-occurrence deduplication (the claims under check never depend on
the iteration order of a Python set). -/
def pyDedupGo : Nat → List Int → List Int
  | _, [] => []
  | 0, l => l
  | fuel + 1, x :: xs => x :: pyDedupGo fuel (xs.filter (fun y => y ≠ x))

/-- First-occurrence deduplication (the list length is enough fuel,
since filtering never lengthens the tail). -/
def pyDedup (l : List Int) : List Int := pyDedupGo l.length l

/-- sposlabels.intersection(sneglabels) (classifier.py line 399). -/
def labelOverlap (pos neg : List Int) : List Int :=
  (pyDedup pos).filter (fun x => x ∈ pyDedup neg)

/-- The result of a successful BinaryClassifier.__init__: the
deduplicated label sets and the values predict will emit for the
positive and negative polarity. -/
structure BinClf where
  poslabels : List Int
  neglabels : List Int
  predictpos : PredOut
  predictneg : PredOut
deriving Repr, DecidableEq

/-- BinaryClassifier.__init__ (classifier.py lines 382-423): the two
label lists are deduplicated; a non-empty intersection raises (the
source attempts to raise ValueError; the malformed format string makes
the actually raised exception a TypeError, but construction fails either
way); a polarity whose set has more than one label predicts the whole
set, a singleton predicts its only label, and an empty set makes the
subscript poslabels[0] or neglabels[0] raise IndexError. -/
def binaryClassifierInit (poslabels neglabels : List Int) : Except String BinClf :=
  let spos := pyDedup poslabels
  let sneg := pyDedup neglabels
  if (labelOverlap poslabels neglabels).length > 0 then
    .error "TypeError: not all arguments converted during string formatting"
  else
    match spos with
    | [] => .error "IndexError: list index out of range"
    | p :: ps =>
      let predictpos := if ps.length + 1 > 1 then PredOut.seq spos else PredOut.one p
      match sneg with
      | [] => .error "IndexError: list index out of range"
      | q :: qs =>
        let predictneg := if qs.length + 1 > 1 then PredOut.seq sneg else PredOut.one q
        .ok ⟨spos, sneg, predictpos, predictneg⟩

/-- The inner pair loop of MulticlassClassifier.train for a fixed i
(classifier.py lines 526-531).  Its body evaluates copy.deepcopy(clf),
but classifier.py only does from copy import deepcopy, so the name copy
is unbound and the first executed body iteration raises NameError. -/
def mcInnerLoop (ulabels : List Int) (i : Nat) : Except String (List (Int × Int)) :=
  ((List.range ulabels.length).drop (i + 1)).foldl
    (fun acc _j =>
      match acc with
      | .error e => .error e
      | .ok _ => .error "NameError: global name copy is not defined")
    (.ok [])

/-- The outer pair loop of MulticlassClassifier.train (classifier.py
lines 525-531), accumulating the binary classifiers of all pairs. -/
def mcOuterLoop (ulabels : List Int) : Except String (List (Int × Int)) :=
  (List.range ulabels.length).foldl
    (fun acc i =>
      match acc with
      | .error e => .error e
      | .ok done =>
        match mcInnerLoop ulabels i with
        | .error e => .error e
        | .ok more => .ok (done ++ more))
    (.ok [])

/-- The trained content of a MulticlassClassifier: the label pairs of
the binary classifiers handed to the inner boosted ensemble. -/
structure MCTrained where
  biclfs : List (Int × Int)
deriving Repr, DecidableEq

/-- MulticlassClassifier.train under the 1-vs-1 strategy (classifier.py
lines 516-541): builds one BinaryClassifier per unordered pair of unique
labels and trains the inner ensemble (training an ensemble with an empty
child list trains nothing and succeeds). -/
def multiclassTrain (d : Dataset) : Except String MCTrained :=
  match mcOuterLoop (uniqueInts d.labels) with
  | .error e => .error e
  | .ok pairs => .ok ⟨pairs⟩

/-- The wrapped classifier seen by ProxyClassifier: predicting on a
sample matrix yields the predictions together with the updated state
values of the wrapped classifier. -/
structure InnerClf where
  predictFn : List (List Int) → List Int × List (String × Int)
  states : List (String × Int)

/-- A ProxyClassifier: the wrapped classifier and the proxy state
values. -/
structure Proxy where
  inner : InnerClf
  states : List (String × Int)

/-- Modelled from the spec: State._copy_states_ of mvpa.misc.state (not
under src) copies, for every state registered on both objects, the value
from the source object; with deep=False the value is shared rather than
cloned. -/
def copyStates (dst src : List (String × Int)) : List (String × Int) :=
  dst.map (fun p =>
    match src.find? (fun q => q.1 = p.1) with
    | some q => (p.1, q.2)
    | none => p)

/-- ProxyClassifier.train (classifier.py lines 203-210): the body
evaluates self.__clf.train(wdata), but the parameter is named data and
no wdata is in scope, so every call raises NameError before reaching the
wrapped classifier. -/
def proxyTrain (_p : Proxy) (_d : Dataset) : Except String Proxy :=
  .error "NameError: global name wdata is not defined"

/-- ProxyClassifier.predict (classifier.py lines 213-219): forwards the
received samples to the wrapped classifier, shallow-copies the wrapped
classifier state values into the proxy, and returns the wrapped result
unchanged. -/
def proxyPredict (p : Proxy) (data : List (List Int)) : List Int × Proxy :=
  let res := p.inner.predictFn data
  (res.1, { inner := { p.inner with states := res.2 },
            states := copyStates p.states res.2 })

/-- An IEEE style extended value as produced by the numpy float
arithmetic in OneWayAnova._call: an exact finite rational (stored as a
canonical numerator and positive denominator, so that float data that
the computation represents exactly is modelled exactly), a signed
infinity, or NaN. -/
inductive RVal
  | fin (num : Int) (den : Int)
  | pinf
  | ninf
  | nan
deriving Repr, DecidableEq

/-- The canonical finite value num/den (den must be nonzero): the sign
is carried by the numerator and the fraction is reduced. -/
def mkFin (num den : Int) : RVal :=
  if num = 0 then .fin 0 1
  else
    let n := if den < 0 then -num else num
    let d := if den < 0 then -den else den
    let g : Int := (Int.gcd n d : Int)
    .fin (n / g) (d / g)

/-- IEEE addition on extended values: NaN propagates and opposite
infinities give NaN. -/
def RVal.add : RVal → RVal → RVal
  | nan, _ => nan
  | _, nan => nan
  | pinf, ninf => nan
  | ninf, pinf => nan
  | pinf, _ => pinf
  | _, pinf => pinf
  | ninf, _ => ninf
  | _, ninf => ninf
  | fin a b, fin c d => mkFin (a * d + c * b) (b * d)

/-- IEEE negation on extended values. -/
def RVal.neg : RVal → RVal
  | fin a b => fin (-a) b
  | pinf => ninf
  | ninf => pinf
  | nan => nan

/-- IEEE subtraction on extended values. -/
def RVal.sub (x y : RVal) : RVal := x.add y.neg

/-- IEEE multiplication on extended values: NaN propagates and zero
times infinity gives NaN. -/
def RVal.mul : RVal → RVal → RVal
  | nan, _ => nan
  | _, nan => nan
  | fin a _, pinf => if a > 0 then pinf else if a < 0 then ninf else nan
  | fin a _, ninf => if a > 0 then ninf else if a < 0 then pinf else nan
  | pinf, fin c _ => if c > 0 then pinf else if c < 0 then ninf else nan
  | ninf, fin c _ => if c > 0 then ninf else if c < 0 then pinf else nan
  | pinf, pinf => pinf
  | ninf, ninf => pinf
  | pinf, ninf => ninf
  | ninf, pinf => ninf
  | fin a b, fin c d => mkFin (a * c) (b * d)

/-- IEEE division on extended values: NaN propagates, zero over zero
and infinity over infinity give NaN, and a nonzero finite value over
zero gives a signed infinity (what numpy float division produces at the
points where OneWayAnova divides by a zero variance or by zero degrees
of freedom). -/
def RVal.div : RVal → RVal → RVal
  | nan, _ => nan
  | _, nan => nan
  | fin a b, fin c d =>
    if c = 0 then (if a = 0 then nan else if a > 0 then pinf else ninf)
    else mkFin (a * d) (b * c)
  | fin _ _, pinf => fin 0 1
  | fin _ _, ninf => fin 0 1
  | pinf, fin c _ => if c < 0 then ninf else pinf
  | ninf, fin c _ => if c < 0 then pinf else ninf
  | pinf, pinf => nan
  | pinf, ninf => nan
  | ninf, pinf => nan
  | ninf, ninf => nan

/-- np.isnan on an extended value. -/
def RVal.isNan : RVal → Bool
  | nan => true
  | _ => false

/-- np.sum over a vector of extended values. -/
def rsum (l : List RVal) : RVal := l.foldl RVal.add (.fin 0 1)

/-- The dataset as consumed by OneWayAnova._call (anova.py lines
74-81): the sample matrix and the per-sample target labels.  Entries
are integers, standing for float data that the float arithmetic
represents exactly. -/
structure ADataset where
  samples : List (List Int)
  labels : List Int
deriving Repr

/-- Column j of the sample matrix, as float values. -/
def colVals (d : ADataset) (j : Nat) : List RVal :=
  d.samples.map (fun r => .fin (r.getD j 0) 1)

/-- alldata[labels == l]: the rows whose target equals l (anova.py
line 95). -/
def groupRows (d : ADataset) (l : Int) : List (List Int) :=
  ((d.labels.zip d.samples).filter (fun p => p.1 = l)).map (fun p => p.2)

/-- Column j of a row selection, as float values. -/
def groupColVals (d : ADataset) (l : Int) (j : Nat) : List RVal :=
  (groupRows d l).map (fun r => .fin (r.getD j 0) 1)

/-- sostot for feature j (anova.py lines 84-86): the square of the
column sum divided by the number of samples. -/
def anovaSostot (d : ADataset) (j : Nat) : RVal :=
  let s := rsum (colVals d j)
  (s.mul s).div (.fin (d.samples.length : Int) 1)

/-- sstot for feature j (anova.py line 89): the sum of squares minus
sostot. -/
def anovaSstot (d : ADataset) (j : Nat) : RVal :=
  (rsum ((colVals d j).map (fun x => x.mul x))).sub (anovaSostot d j)

/-- ssbn for feature j (anova.py lines 92-100): per unique label, the
square of the group sum over the group size, summed, minus sostot. -/
def anovaSsbn (d : ADataset) (j : Nat) : RVal :=
  (rsum ((uniqueInts d.labels).map (fun l =>
    let g := groupColVals d l j
    ((rsum g).mul (rsum g)).div (.fin (g.length : Int) 1)))).sub (anovaSostot d j)

/-- sswn for feature j (anova.py line 102). -/
def anovaSswn (d : ADataset) (j : Nat) : RVal :=
  (anovaSstot d j).sub (anovaSsbn d j)

/-- The raw F statistic of feature j (anova.py lines 104-111): mean
square between over mean square within, before the NaN replacement. -/
def anovaRawF (d : ADataset) (j : Nat) : RVal :=
  let na : Int := ((uniqueInts d.labels).length : Int)
  let dfbn : Int := na - 1
  let dfwn : Int := (d.samples.length : Int) - na
  let msb := (anovaSsbn d j).div (.fin dfbn 1)
  let msw := (anovaSswn d j).div (.fin dfwn 1)
  msb.div msw

/-- OneWayAnova._call (anova.py lines 67-123): the per-feature F score
vector after the replacement f[np.isnan(f)] = 0. -/
def anovaCall (d : ADataset) : List RVal :=
  (List.range (d.samples.headD []).length).map (fun j =>
    let f := anovaRawF d j
    if f.isNan then .fin 0 1 else f)

/-- The contract of random.sample for the draw oracle: on a duplicate
free population and a feasible draw size it returns that many distinct
members of the population (a draw without replacement). -/
def SamplerOK (sampler : List Nat → Nat → List Nat) : Prop :=
  ∀ pop k, pop.Nodup → k ≤ pop.length →
    (sampler pop k).length = k ∧ (sampler pop k).Nodup ∧
      ∀ x ∈ sampler pop k, x ∈ pop

/-- The per-label draws of Dataset.getRandomSamples, one list of sample
ids per unique label, indexing nperlabel from position i on. -/
def picksFrom (sampler : List Nat → Nat → List Nat) (labels : List Int) (nper : List Nat) :
    List Int → Nat → List (List Nat)
  | [], _ => []
  | r :: rest, i =>
    sampler (npos labels r) (nper.getD i 0) :: picksFrom sampler labels nper rest (i + 1)

/-- A concrete deterministic draw oracle (take the first k members),
used to run the random.sample oracle on concrete inputs. -/
def takeSampler (pop : List Nat) (k : Nat) : List Nat := pop.take k

/-!  Theorems.  -/

/-- Claim C10: MaximalVote applied to an empty list of classifiers
returns an empty predictions list and does not fail, without checking
any classifier state and without writing the predictions or
all_label_counts states of the combiner (the state record is returned
unchanged, whatever it held and however its slots are enabled). -/
theorem C10_empty_clf_list (st : MVStates) :
    maximalVoteCall st [] = .ok ([], st) := rfl

/-- Claim C1, failing input: two classifiers with the predictions state
enabled, one predicting label 1 and the other label 2 for the single
sample, tie with counts 1 and 1; the call then raises NameError (the
name warning is not defined in classifier.py) instead of emitting a
warning and returning the first maximal label. -/
theorem C1_tie_vote_raises_namerror :
    maximalVoteCall {} [⟨true, [.one 1]⟩, ⟨true, [.one 2]⟩] =
      .error "NameError: global name warning is not defined" := rfl

/-- Claim C5, failing input: a dataset with two unique labels; training
the 1-vs-1 multiclass classifier raises NameError on the first label
pair (classifier.py line 530 references the module name copy, which is
never imported), so no BinaryClassifier is ever created and the inner
ensemble is never trained. -/
theorem C5_multiclass_train_raises_namerror :
    multiclassTrain ⟨[[0], [1]], 1, [1, 2], [0, 1], none⟩ =
      .error "NameError: global name copy is not defined" := rfl

/-- Claim C9: ProxyClassifier.predict forwards the received samples to
the wrapped classifier, returns its result unchanged and shallow-copies
the wrapped classifier state values into the proxy; but
ProxyClassifier.train raises NameError on every call (classifier.py
line 207 passes the unbound name wdata instead of the parameter data),
so train never forwards the received dataset. -/
theorem C9_proxy_forwarding (p : Proxy) (d : Dataset) (data : List (List Int)) :
    proxyTrain p d = .error "NameError: global name wdata is not defined" ∧
    (proxyPredict p data).1 = (p.inner.predictFn data).1 ∧
    (proxyPredict p data).2.states = copyStates p.states (p.inner.predictFn data).2 :=
  ⟨rfl, rfl, rfl⟩

/-- Claim C2: enabling label permutation and then disabling it restores
the labels to exactly the original sequence, for any permutation oracle
and regardless of the per-chunk flag of either call; the net effect on
the dataset is only that the permutation backup is cleared. -/
theorem C2_permute_roundtrip (perm1 perm2 : List Int → List Int) (d : Dataset)
    (pc1 pc2 : Bool) :
    ∃ d1, permutedRegressors perm1 d true pc1 = .ok d1 ∧
      permutedRegressors perm2 d1 false pc2 = .ok { d with origlabels := none } ∧
      ({ d with origlabels := none } : Dataset).labels = d.labels :=
  ⟨_, rfl, rfl, rfl⟩

/-- Claim C6, counterexample: an empty positive label list is disjoint
from the negative list (empty intersection), yet construction fails,
with an index error from poslabels[0]; so construction does not fail
exactly on overlapping label sets and disjoint sets do not guarantee
success. -/
theorem C6_empty_poslabels_counterexample :
    binaryClassifierInit [] [1] = .error "IndexError: list index out of range" ∧
    labelOverlap [] [1] = [] :=
  ⟨rfl, rfl⟩

/-- Claim C6, amended: for non-empty positive and negative label lists,
BinaryClassifier construction succeeds exactly when the deduplicated
label sets have an empty intersection (overlap makes the overlap check
raise); with an empty positive or negative list, construction fails
with an index error even though the sets are disjoint. -/
theorem C6_overlap_iff (pos neg : List Int) (hp : pos ≠ []) (hn : neg ≠ []) :
    (∃ b, binaryClassifierInit pos neg = .ok b) ↔ labelOverlap pos neg = [] := by
  rcases pos with _ | ⟨x, xs⟩
  · exact absurd rfl hp
  rcases neg with _ | ⟨y, ys⟩
  · exact absurd rfl hn
  unfold binaryClassifierInit
  by_cases hov : (labelOverlap (x :: xs) (y :: ys)).length > 0
  · rw [if_pos hov]
    constructor
    · rintro ⟨b, hb⟩
      exact absurd hb (by simp)
    · intro h
      rw [h] at hov
      exact absurd hov (by simp)
  · rw [if_neg hov]
    have hov' : labelOverlap (x :: xs) (y :: ys) = [] := by
      rcases h : labelOverlap (x :: xs) (y :: ys) with _ | ⟨a, l⟩
      · rfl
      · rw [h] at hov
        exact absurd (by simp) hov
    simp only [pyDedup, List.length_cons, pyDedupGo]
    exact ⟨fun _ => hov', fun _ => ⟨_, rfl⟩⟩

/-- Claim C6, witness for the amended statement: overlapping sets
poslabels [1, 2] and neglabels [2, 3] make construction fail, while the
disjoint singletons 1 and 2 construct successfully. -/
theorem C6_overlap_iff_witness :
    (¬ ∃ b, binaryClassifierInit [1, 2] [2, 3] = .ok b) ∧
    (∃ b, binaryClassifierInit [1] [2] = .ok b) := by
  constructor
  · intro h
    have h2 := (C6_overlap_iff [1, 2] [2, 3] (by decide) (by decide)).mp h
    exact absurd h2 (by decide)
  · exact (C6_overlap_iff [1] [2] (by decide) (by decide)).mpr (by decide)

/-- Claim C7, counterexample: on the dataset with one feature holding
values 0, 0, 1, 1 and labels 1, 1, 2, 2 the within-group variance of
the feature is exactly zero, yet the reported score is positive
infinity, not 0: the raw F value there is a nonzero value divided by
zero, which the float arithmetic turns into infinity rather than NaN,
and the replacement f[np.isnan(f)] = 0 does not touch it. -/
theorem C7_zero_within_variance_gives_inf :
    anovaSswn ⟨[[0], [0], [1], [1]], [1, 1, 2, 2]⟩ 0 = .fin 0 1 ∧
    anovaCall ⟨[[0], [0], [1], [1]], [1, 1, 2, 2]⟩ = [RVal.pinf] ∧
    RVal.pinf ≠ RVal.fin 0 1 :=
  ⟨rfl, rfl, by decide⟩

/-- Claim C7, amended: OneWayAnova replaces every feature whose raw F
computation yields NaN by 0, so NaN is never propagated to the caller;
a feature with zero within-group variance is reported as 0 only when
its raw F value is NaN (as for a constant feature, where the
between-group variance also vanishes, shown here on a concrete
dataset); a zero within-group variance together with a nonzero
between-group variance yields positive infinity instead. -/
theorem C7_nan_replaced_by_zero :
    (∀ d : ADataset, ∀ x ∈ anovaCall d, x.isNan = false) ∧
    (∀ d : ADataset, ∀ j, j < (d.samples.headD []).length →
      (anovaRawF d j).isNan = true → (anovaCall d).get? j = some (.fin 0 1)) ∧
    anovaCall ⟨[[5], [5], [5], [5]], [1, 1, 2, 2]⟩ = [RVal.fin 0 1] := by
  refine ⟨?_, ?_, rfl⟩
  · intro d x hx
    simp only [anovaCall, List.mem_map] at hx
    obtain ⟨j, _hj, rfl⟩ := hx
    cases hb : (anovaRawF d j).isNan
    · simp [hb]
    · simp [hb, RVal.isNan]
  · intro d j hj hnan
    simp only [anovaCall, List.get?_map, List.get?_range hj, Option.map_some', hnan,
      if_true]

/-- Claim C7, witness: the amended statement applied to the constant
feature dataset, whose raw F value is NaN and whose reported score is
therefore 0 and is not NaN. -/
theorem C7_nan_replaced_by_zero_witness :
    (RVal.fin 0 1).isNan = false ∧
    (anovaCall ⟨[[5], [5], [5], [5]], [1, 1, 2, 2]⟩).get? 0 = some (.fin 0 1) :=
  ⟨C7_nan_replaced_by_zero.1 ⟨[[5], [5], [5], [5]], [1, 1, 2, 2]⟩ (.fin 0 1) (by decide),
   C7_nan_replaced_by_zero.2.1 ⟨[[5], [5], [5], [5]], [1, 1, 2, 2]⟩ 0 (by decide) (by decide)⟩

theorem mkLabels_length {n : Nat} {v : ValOrSeq} {lab : List Int}
    (h : mkLabels n v = .ok lab) : lab.length = n := by
  cases v with
  | seq l =>
    simp only [mkLabels] at h
    by_cases hc : l.length ≠ n
    · rw [if_pos hc] at h
      exact absurd h (by simp)
    · rw [if_neg hc] at h
      cases h
      exact not_ne_iff.mp hc
  | scalar w =>
    simp only [mkLabels] at h
    cases h
    simp

theorem mkChunks_length {n : Nat} {v : Option ValOrSeq} {chk : List Int}
    (h : mkChunks n v = .ok chk) : chk.length = n := by
  cases v with
  | none =>
    simp only [mkChunks] at h
    cases h
    simp only [List.length_map, List.length_range]
  | some w =>
    cases w with
    | seq c =>
      simp only [mkChunks] at h
      by_cases hc : c.length ≠ n
      · rw [if_pos hc] at h
        exact absurd h (by simp)
      · rw [if_neg hc] at h
        cases h
        exact not_ne_iff.mp hc
    | scalar w =>
      simp only [mkChunks] at h
      cases h
      simp

theorem mkDatasetArr_ok {smp : List (List Int)} {nf : Nat} {lab chk : List Int}
    {d : Dataset} (h : mkDatasetArr smp nf lab chk = .ok d) :
    d = ⟨smp, nf, lab, chk, none⟩ ∧ lab.length = smp.length ∧
      chk.length = smp.length := by
  simp only [mkDatasetArr] at h
  by_cases h1 : lab.length ≠ smp.length
  · rw [if_pos h1] at h
    exact absurd h (by simp)
  · rw [if_neg h1] at h
    by_cases h2 : chk.length ≠ smp.length
    · rw [if_pos h2] at h
      exact absurd h (by simp)
    · rw [if_neg h2] at h
      cases h
      exact ⟨rfl, not_ne_iff.mp h1, not_ne_iff.mp h2⟩

theorem mkDatasetArr_inv {smp : List (List Int)} {nf : Nat} {lab chk : List Int}
    {d : Dataset} (h : mkDatasetArr smp nf lab chk = .ok d) : dsInv d := by
  obtain ⟨rfl, h1, h2⟩ := mkDatasetArr_ok h
  exact ⟨h1, h2⟩

theorem mkDatasetArr_of_inv {a : Dataset} (ha : dsInv a) :
    mkDatasetArr a.samples a.nfeat a.labels a.chunks =
      .ok ⟨a.samples, a.nfeat, a.labels, a.chunks, none⟩ := by
  simp only [mkDatasetArr]
  rw [if_neg (by simp [ha.1]), if_neg (by simp [ha.2])]

/-- Claim C3: every successfully constructed Dataset satisfies
len(labels) == len(chunks) == samples.shape[0], whether built by the
constructor or returned by selectFeatures, selectSamples,
concatenation, or random subsampling; a 3-d samples input never
constructs (the stored samples matrix always has exactly 2 dimensions);
and selectSamples with a single non-sequence index yields a dataset
with exactly one sample row. -/
theorem C3_dataset_invariants :
    (∀ s l c d, mkDataset s l c = .ok d → dsInv d) ∧
    (∀ t l c, ∃ e, mkDataset (.d3 t) l c = .error e) ∧
    (∀ a ids d, selectFeatures a ids = .ok d → dsInv d) ∧
    (∀ a mask d, selectSamplesList a mask = .ok d → dsInv d) ∧
    (∀ a b d, dsInv b → addDS a b = .ok d → dsInv d) ∧
    (∀ sampler a nper d, getRandomSamples sampler a nper = .ok d → dsInv d) ∧
    (∀ a i d, selectSamplesSingle a i = .ok d → d.samples.length = 1) := by
  have hsel : ∀ a mask d, selectSamplesList a mask = .ok d → dsInv d := by
    intro a mask d h
    simp only [selectSamplesList] at h
    by_cases hc : mask.all (fun i => i < a.samples.length) = true
    · rw [if_pos hc] at h
      exact mkDatasetArr_inv h
    · rw [if_neg hc] at h
      exact absurd h (by simp)
  refine ⟨?_, ?_, ?_, hsel, ?_, ?_, ?_⟩
  · intro s l c d h
    simp only [mkDataset] at h
    cases hnd : ndmin2 s with
    | error e => rw [hnd] at h; exact absurd h (by simp)
    | ok p =>
      obtain ⟨smp, nf⟩ := p
      rw [hnd] at h
      dsimp only at h
      cases hlab : mkLabels smp.length l with
      | error e => rw [hlab] at h; exact absurd h (by simp)
      | ok lab =>
        rw [hlab] at h
        dsimp only at h
        cases hchk : mkChunks smp.length c with
        | error e => rw [hchk] at h; exact absurd h (by simp)
        | ok chk =>
          rw [hchk] at h
          dsimp only at h
          cases h
          exact ⟨mkLabels_length hlab, mkChunks_length hchk⟩
  · intro t l c
    exact ⟨_, rfl⟩
  · intro a ids d h
    simp only [selectFeatures] at h
    by_cases hc : ids.all (fun i => i < a.nfeat) = true
    · rw [if_pos hc] at h
      exact mkDatasetArr_inv h
    · rw [if_neg hc] at h
      exact absurd h (by simp)
  · intro a b d hb h
    simp only [addDS] at h
    cases hmk : mkDatasetArr a.samples a.nfeat a.labels a.chunks with
    | error e => rw [hmk] at h; exact absurd h (by simp)
    | ok out =>
      rw [hmk] at h
      dsimp only at h
      have hout : dsInv out := mkDatasetArr_inv hmk
      simp only [iaddDS] at h
      by_cases hc : out.nfeat ≠ b.nfeat
      · rw [if_pos hc] at h
        exact absurd h (by simp)
      · rw [if_neg hc] at h
        cases h
        exact ⟨by simp [List.length_append, hout.1, hb.1],
               by simp [List.length_append, hout.2, hb.2]⟩
  · intro sampler a nper d h
    simp only [getRandomSamples] at h
    cases hch : chosenGo sampler a.labels (nperLOf (uniqueInts a.labels) nper)
        (uniqueInts a.labels) 0 with
    | error e => rw [hch] at h; exact absurd h (by simp)
    | ok ids =>
      rw [hch] at h
      exact hsel _ _ _ h
  · intro a i d h
    simp only [selectSamplesSingle, selectSamplesList] at h
    by_cases hc : ([i].all (fun j => j < a.samples.length)) = true
    · rw [if_pos hc] at h
      obtain ⟨rfl, -, -⟩ := mkDatasetArr_ok h
      simp
    · rw [if_neg hc] at h
      exact absurd h (by simp)

/-- Claim C3, witness: the invariant on a concretely constructed
dataset, and a concrete single-index selection with exactly one
resulting sample row. -/
theorem C3_dataset_invariants_witness :
    dsInv ⟨[[1, 2], [3, 4]], 2, [1, 2], [0, 1], none⟩ ∧
    (⟨[[3, 4]], 2, [2], [1], none⟩ : Dataset).samples.length = 1 :=
  ⟨C3_dataset_invariants.1 (.d2 [[1, 2], [3, 4]]) (.seq [1, 2]) none
      ⟨[[1, 2], [3, 4]], 2, [1, 2], [0, 1], none⟩ rfl,
   C3_dataset_invariants.2.2.2.2.2.2 ⟨[[1, 2], [3, 4]], 2, [1, 2], [0, 1], none⟩ 1
      ⟨[[3, 4]], 2, [2], [1], none⟩ rfl⟩

/-- Claim C4: concatenating two Datasets fails with the shape mismatch
ValueError exactly when the feature counts differ; otherwise the result
concatenates samples, labels and chunks, so its sample count is the sum
of the two sample counts, and every chunk value is carried over
unchanged; in particular concatenating a dataset with itself doubles
the sample count. -/
theorem C4_concat (a b : Dataset) (ha : dsInv a) :
    (a.nfeat ≠ b.nfeat →
      addDS a b =
        .error "ValueError: Cannot add Dataset, because the number of feature do not match.") ∧
    (a.nfeat = b.nfeat →
      addDS a b = .ok ⟨a.samples ++ b.samples, a.nfeat, a.labels ++ b.labels,
        a.chunks ++ b.chunks, none⟩) ∧
    (∃ d, addDS a a = .ok d ∧ d.samples.length = 2 * a.samples.length ∧
      d.labels = a.labels ++ a.labels ∧ d.chunks = a.chunks ++ a.chunks) := by
  have hbase : ∀ c : Dataset, addDS a c =
      iaddDS ⟨a.samples, a.nfeat, a.labels, a.chunks, none⟩ c := by
    intro c
    simp only [addDS, mkDatasetArr_of_inv ha]
  have hok : ∀ c : Dataset, a.nfeat = c.nfeat →
      addDS a c = .ok ⟨a.samples ++ c.samples, a.nfeat, a.labels ++ c.labels,
        a.chunks ++ c.chunks, none⟩ := by
    intro c heq
    rw [hbase]
    simp only [iaddDS]
    rw [if_neg (by simp [heq])]
  refine ⟨?_, hok b,
    ⟨_, hok a rfl, by simp [List.length_append, two_mul], rfl, rfl⟩⟩
  intro hne
  rw [hbase]
  simp only [iaddDS]
  rw [if_pos hne]

/-- Claim C4, witness: a concrete concatenation of two one-sample
two-feature datasets, and a concrete shape mismatch failure. -/
theorem C4_concat_witness :
    addDS ⟨[[1, 2]], 2, [3], [0], none⟩ ⟨[[4, 5]], 2, [6], [1], none⟩ =
      .ok ⟨[[1, 2], [4, 5]], 2, [3, 6], [0, 1], none⟩ ∧
    addDS ⟨[[1, 2]], 2, [3], [0], none⟩ ⟨[[4]], 1, [6], [1], none⟩ =
      .error "ValueError: Cannot add Dataset, because the number of feature do not match." :=
  ⟨(C4_concat ⟨[[1, 2]], 2, [3], [0], none⟩ ⟨[[4, 5]], 2, [6], [1], none⟩
      ⟨rfl, rfl⟩).2.1 rfl,
   (C4_concat ⟨[[1, 2]], 2, [3], [0], none⟩ ⟨[[4]], 1, [6], [1], none⟩
      ⟨rfl, rfl⟩).1 (by decide)⟩

theorem getD_of_get? {l : List Nat} {i x : Nat} (h : l.get? i = some x) :
    l.getD i 0 = x := by
  rw [List.get?_eq_getElem?] at h
  simp [List.getD_eq_getElem?_getD, h]

theorem chosenGo_short (sampler : List Nat → Nat → List Nat) (labels : List Int)
    (nper : List Nat) :
    ∀ (ul : List Int) (i : Nat), 0 < ul.length → nper.length < i + ul.length →
      ∃ e, chosenGo sampler labels nper ul i = .error e := by
  intro ul
  induction ul with
  | nil =>
    intro i h0 _
    simp at h0
  | cons r rest ih =>
    intro i _ hlen
    simp only [chosenGo]
    cases hq : nper.get? i with
    | none => exact ⟨_, rfl⟩
    | some k =>
      have hik : i < nper.length := by
        by_contra hle
        rw [List.get?_eq_none.mpr (by omega)] at hq
        cases hq
      have hrest : 0 < rest.length := by
        simp only [List.length_cons] at hlen
        omega
      cases hrs : randomSample sampler (npos labels r) k with
      | error e => exact ⟨e, by simp only [hrs]⟩
      | ok s =>
        obtain ⟨e, he⟩ := ih (i + 1) hrest
          (by simp only [List.length_cons] at hlen; omega)
        exact ⟨e, by simp only [hrs, he]⟩

theorem picksFrom_getD (sampler : List Nat → Nat → List Nat) (labels : List Int)
    (nper : List Nat) :
    ∀ (ul : List Int) (i j : Nat), j < ul.length →
      (picksFrom sampler labels nper ul i).getD j [] =
        sampler (npos labels (ul.getD j 0)) (nper.getD (i + j) 0) := by
  intro ul
  induction ul with
  | nil =>
    intro i j hj
    simp at hj
  | cons r rest ih =>
    intro i j hj
    cases j with
    | zero => simp [picksFrom]
    | succ j =>
      simp only [picksFrom, List.getD_cons_succ]
      rw [show i + (j + 1) = i + 1 + j from by omega]
      exact ih (i + 1) j (by simp only [List.length_cons] at hj; omega)

theorem chosenGo_ok (sampler : List Nat → Nat → List Nat) (labels : List Int)
    (nper : List Nat) :
    ∀ (ul : List Int) (i : Nat), i + ul.length ≤ nper.length →
      (∀ j, j < ul.length →
        nper.getD (i + j) 0 ≤ (npos labels (ul.getD j 0)).length) →
      chosenGo sampler labels nper ul i =
        .ok (picksFrom sampler labels nper ul i).flatten := by
  intro ul
  induction ul with
  | nil =>
    intro i _ _
    simp [chosenGo, picksFrom]
  | cons r rest ih =>
    intro i hlen hbound
    have hik : i < nper.length := by
      simp only [List.length_cons] at hlen
      omega
    obtain ⟨x, hx⟩ : ∃ x, nper.get? i = some x := by
      cases hq : nper.get? i with
      | none =>
        rw [List.get?_eq_none] at hq
        omega
      | some y => exact ⟨y, rfl⟩
    have hxD : nper.getD i 0 = x := getD_of_get? hx
    have hb0 : nper.getD i 0 ≤ (npos labels r).length := by
      have := hbound 0 (by simp)
      simpa using this
    simp only [chosenGo, picksFrom, hx]
    simp only [randomSample]
    rw [if_pos (show x ≤ (npos labels r).length by rw [← hxD]; exact hb0)]
    rw [ih (i + 1) (by simp only [List.length_cons] at hlen; omega)
      (by
        intro j hj
        have := hbound (j + 1) (by simp only [List.length_cons]; omega)
        rw [show i + (j + 1) = i + 1 + j from by omega] at this
        simpa using this)]
    have hxD2 : nper[i]?.getD 0 = x := by
      rw [List.get?_eq_getElem?] at hx
      simp [hx]
    simp [hxD2]

theorem npos_nodup (labels : List Int) (r : Int) : (npos labels r).Nodup :=
  List.Nodup.filter _ (List.nodup_range _)

theorem takeSampler_ok : SamplerOK takeSampler := by
  intro pop k hnd hk
  refine ⟨?_, ?_, ?_⟩
  · simp only [takeSampler, List.length_take]
    omega
  · exact (List.take_sublist k pop).nodup hnd
  · intro x hx
    exact List.Sublist.mem hx (List.take_sublist k pop)

/-- Claim C8, amended: getRandomSamples broadcasts a single integer to
one entry per unique label; a per-label sequence that is shorter than
the number of unique labels fails (with an index error, while reaching
past the end of the sequence); a longer sequence is not rejected, its
extra entries are simply never read; and when every requested count is
feasible the call draws, independently for each unique label group, the
requested number of distinct sample positions from that group (a draw
without replacement) and selects exactly those samples. -/
theorem C8_random_subsample (sampler : List Nat → Nat → List Nat) (d : Dataset)
    (nper : List Nat) (hs : SamplerOK sampler) :
    (∀ k, getRandomSamples sampler d (.inl k) =
      getRandomSamples sampler d (.inr ((uniqueInts d.labels).map (fun _ => k)))) ∧
    (nper.length < (uniqueInts d.labels).length →
      ∃ e, getRandomSamples sampler d (.inr nper) = .error e) ∧
    ((uniqueInts d.labels).length ≤ nper.length →
      (∀ j, j < (uniqueInts d.labels).length →
        nper.getD j 0 ≤ (npos d.labels ((uniqueInts d.labels).getD j 0)).length) →
      getRandomSamples sampler d (.inr nper) =
        selectSamplesList d
          (picksFrom sampler d.labels nper (uniqueInts d.labels) 0).flatten ∧
      (∀ j, j < (uniqueInts d.labels).length →
        ((picksFrom sampler d.labels nper (uniqueInts d.labels) 0).getD j []).length =
            nper.getD j 0 ∧
        ((picksFrom sampler d.labels nper (uniqueInts d.labels) 0).getD j []).Nodup ∧
        ∀ x ∈ (picksFrom sampler d.labels nper (uniqueInts d.labels) 0).getD j [],
          x ∈ npos d.labels ((uniqueInts d.labels).getD j 0))) := by
  refine ⟨fun k => rfl, ?_, ?_⟩
  · intro hlt
    obtain ⟨e, he⟩ := chosenGo_short sampler d.labels nper (uniqueInts d.labels) 0
      (by omega) (by omega)
    exact ⟨e, by simp only [getRandomSamples, nperLOf, he]⟩
  · intro hlen hbound
    have hok := chosenGo_ok sampler d.labels nper (uniqueInts d.labels) 0
      (by omega) (by intro j hj; simpa using hbound j hj)
    constructor
    · simp only [getRandomSamples, nperLOf, hok]
    · intro j hj
      rw [picksFrom_getD sampler d.labels nper (uniqueInts d.labels) 0 j hj]
      simp only [Nat.zero_add]
      exact hs (npos d.labels ((uniqueInts d.labels).getD j 0))
        (nper.getD j 0) (npos_nodup _ _) (hbound j hj)

/-- Claim C8, counterexample: a dataset with one unique label and a
per-label sequence of length three; the claim requires a length
mismatch failure, but the code succeeds, drawing for the single label
group and ignoring the extra entries. -/
theorem C8_longer_sequence_counterexample :
    (uniqueInts ([5, 5] : List Int)).length = 1 ∧
    ([1, 1, 1] : List Nat).length = 3 ∧
    getRandomSamples takeSampler ⟨[[1], [2]], 1, [5, 5], [0, 1], none⟩
        (.inr [1, 1, 1]) = .ok ⟨[[1]], 1, [5], [0], none⟩ :=
  ⟨rfl, rfl, rfl⟩

/-- Claim C8, witness: the amended statement instantiated with the
take-first draw oracle on a dataset with two unique labels and feasible
per-label counts 1 and 2. -/
theorem C8_random_subsample_witness :
    getRandomSamples takeSampler
        ⟨[[1], [2], [3], [4]], 1, [5, 5, 6, 6], [0, 1, 2, 3], none⟩ (.inr [1, 2]) =
      selectSamplesList ⟨[[1], [2], [3], [4]], 1, [5, 5, 6, 6], [0, 1, 2, 3], none⟩
        (picksFrom takeSampler [5, 5, 6, 6] [1, 2] (uniqueInts [5, 5, 6, 6]) 0).flatten :=
  ((C8_random_subsample takeSampler
      ⟨[[1], [2], [3], [4]], 1, [5, 5, 6, 6], [0, 1, 2, 3], none⟩ [1, 2]
      takeSampler_ok).2.2 (by decide) (by decide)).1
